import Mathlib

/-!
Verification development for the taggy native core
(src/packages/taggy/native/src/api.rs).

The file api.rs contains the operation engine (read_all, read_primary,
read_any, write_all, write_primary, remove_all, remove_tag).  The unified
Tag/Picture/TaggyFile data model, the adapter conversions, and the native
lofty backend are external to src/ and are modelled here from the spec
(sections 3, 4.1-4.3 and 6).  File-system state is an explicit map from
paths to parsed file entries; each writing operation returns the result,
the file system after any save, whether a save happened, and the list of
skipped-insert warnings it reported.
-/

namespace Taggy

/-- Modelled from the spec: the native backend's tag format discriminators
(ID3v1, ID3v2, Vorbis Comments, APE, MP4 ilst, RIFF info, AIFF text). -/
inductive LoftyTagType where
  | Ape
  | Id3v1
  | Id3v2
  | Mp4Ilst
  | VorbisComments
  | RiffInfo
  | AiffText
  deriving DecidableEq, Repr

/-- Modelled from the spec: the unified TagType, an enumerated discriminator
over the supported native tag formats plus a sentinel FilePrimaryType used
only as a write-time directive, never as a stored value on a resolved tag. -/
inductive TagType where
  | Ape
  | Id3v1
  | Id3v2
  | Mp4Ilst
  | VorbisComments
  | RiffInfo
  | AiffText
  | FilePrimaryType
  deriving DecidableEq, Repr

/-- Modelled from the spec: conversion of a backend tag type into the unified
one (the From impl of the missing tag module). -/
def TagType.fromLofty : LoftyTagType → TagType
  | .Ape => .Ape
  | .Id3v1 => .Id3v1
  | .Id3v2 => .Id3v2
  | .Mp4Ilst => .Mp4Ilst
  | .VorbisComments => .VorbisComments
  | .RiffInfo => .RiffInfo
  | .AiffText => .AiffText

/-- Modelled from the spec: conversion of a unified tag type into the backend
one (the Into impl of the missing tag module).  The sentinel is a write-time
directive only; the spec does not fix its image, so a fixed placeholder is
used (no claim depends on this choice). -/
def TagType.intoLofty : TagType → LoftyTagType
  | .Ape => .Ape
  | .Id3v1 => .Id3v1
  | .Id3v2 => .Id3v2
  | .Mp4Ilst => .Mp4Ilst
  | .VorbisComments => .VorbisComments
  | .RiffInfo => .RiffInfo
  | .AiffText => .AiffText
  | .FilePrimaryType => .Id3v2

/-- Modelled from the spec: enumerated role of an embedded picture. -/
inductive PictureType where
  | CoverFront
  | CoverBack
  | Artist
  | Icon
  | Other
  deriving DecidableEq, Repr

/-- Modelled from the spec: enumerated MIME kind of an embedded picture. -/
inductive MimeType where
  | Png
  | Jpeg
  | Bmp
  | Gif
  | Tiff
  deriving DecidableEq, Repr

/-- Modelled from the spec: embedded artwork value object. -/
structure Picture where
  pic_type : PictureType
  pic_data : List Nat
  mime_type : Option MimeType
  width : Option Nat
  height : Option Nat
  color_depth : Option Nat
  num_colors : Option Nat
  deriving DecidableEq, Repr

/-- Modelled from the spec: the unified Tag value object, a tag-type
discriminator plus enumerated optional metadata fields and an ordered
sequence of pictures. -/
structure Tag where
  tag_type : TagType
  title : Option String
  artist : Option String
  album : Option String
  album_artist : Option String
  genre : Option String
  comment : Option String
  year : Option Nat
  track_number : Option Nat
  track_total : Option Nat
  disc_number : Option Nat
  disc_total : Option Nat
  pictures : List Picture
  deriving DecidableEq, Repr

/-- Modelled from the spec: Tag.new(tag_type) returns a Tag with tag_type set
and every other field empty or absent, the canonical empty tag used for the
deletion semantics. -/
def Tag.new (tag_type : TagType) : Tag :=
  ⟨tag_type, none, none, none, none, none, none, none, none, none, none, none, []⟩

/-- Modelled from the spec: the native backend's tag object, the image of the
unified model under the adapter (native fields outside the enumerated set are
invisible to the core and so are not modelled). -/
structure LoftyTag where
  tagType : LoftyTagType
  title : Option String
  artist : Option String
  album : Option String
  album_artist : Option String
  genre : Option String
  comment : Option String
  year : Option Nat
  track_number : Option Nat
  track_total : Option Nat
  disc_number : Option Nat
  disc_total : Option Nat
  pictures : List Picture
  deriving DecidableEq, Repr

/-- Modelled from the spec: to_native maps every unified field to the native
key, pictures 1:1 preserving order. -/
def Tag.to_lofty (t : Tag) : LoftyTag :=
  ⟨t.tag_type.intoLofty, t.title, t.artist, t.album, t.album_artist, t.genre,
    t.comment, t.year, t.track_number, t.track_total, t.disc_number,
    t.disc_total, t.pictures⟩

/-- Modelled from the spec: from_native, the inverse mapping of the adapter. -/
def tag_from_lofty (t : LoftyTag) : Tag :=
  ⟨TagType.fromLofty t.tagType, t.title, t.artist, t.album, t.album_artist,
    t.genre, t.comment, t.year, t.track_number, t.track_total, t.disc_number,
    t.disc_total, t.pictures⟩

/-- Modelled from the spec: a container format, characterised by the one tag
format it natively prefers and by which tag formats it can host at all. -/
structure FileType where
  primary : LoftyTagType
  supports : LoftyTagType → Bool

/-- Modelled from the spec: read-only audio stream summary, an opaque
passthrough from the backend. -/
structure FileProperties where
  duration : Option Nat
  bitrate : Option Nat
  sample_rate : Option Nat
  channels : Option Nat
  deriving DecidableEq, Repr

/-- Modelled from the spec: the backend's in-memory tagged-file
representation, the sequence of native tags in discovery order together with
the container type and stream properties. -/
structure TaggedState where
  fileType : FileType
  props : FileProperties
  tags : List LoftyTag

/-- Modelled from the spec: the backend's tag insertion into the tag list,
replacing any existing tag of the same type and otherwise appending. -/
def insertTagList : List LoftyTag → LoftyTag → List LoftyTag
  | [], t => [t]
  | x :: rest, t =>
    if x.tagType = t.tagType then t :: rest else x :: insertTagList rest t

/-- Modelled from the spec: clear() removes every tag from the in-memory
representation. -/
def TaggedState.clear (st : TaggedState) : TaggedState :=
  { st with tags := [] }

/-- Modelled from the spec: insert_tag returns an absent result when the
container does not support the tag's type, and otherwise stores the tag,
replacing any existing tag of that type. -/
def TaggedState.insert_tag (st : TaggedState) (t : LoftyTag) :
    Option TaggedState :=
  if st.fileType.supports t.tagType then
    some { st with tags := insertTagList st.tags t }
  else
    none

/-- Modelled from the spec: remove(tag_type) takes the tag of the given type
out of the in-memory representation and returns it, or returns absent when no
such tag exists. -/
def TaggedState.remove (st : TaggedState) (tt : LoftyTagType) :
    Option (LoftyTag × TaggedState) :=
  match st.tags.find? (fun x => decide (x.tagType = tt)) with
  | some t =>
      some (t, { st with tags := st.tags.filter (fun x => decide (x.tagType ≠ tt)) })
  | none => none

/-- Modelled from the spec: primary_tag_type() resolves the container's
preferred tag format. -/
def TaggedState.primary_tag_type (st : TaggedState) : LoftyTagType :=
  st.fileType.primary

/-- Modelled from the spec: a path either fails to parse (the backend opened
the file but could not interpret it) or parses into a tagged state. -/
inductive FileEntry where
  | corrupt
  | audio (st : TaggedState)

/-- Modelled from the spec: the file system, a map from paths to entries;
an absent entry is a path that cannot be opened. -/
def FS : Type := String → Option FileEntry

/-- Error taxonomy of the operation engine: the path does not resolve to an
openable file, or the backend could not interpret the container. -/
inductive Err where
  | notFound
  | parseError
  deriving DecidableEq, Repr

/-- Helper of api.rs: get a read-only tagged file from the given path, failing
when the path does not open or the backend cannot parse it. -/
def get_tagged_file (fs : FS) (path : String) : Except Err TaggedState :=
  match fs path with
  | none => .error .notFound
  | some .corrupt => .error .parseError
  | some (.audio st) => .ok st

/-- Helper of api.rs: get a bound tagged file (read and write access) from the
given path, failing when the path does not open or the backend cannot parse
it. -/
def get_bound_tagged_file (fs : FS) (path : String) : Except Err TaggedState :=
  match fs path with
  | none => .error .notFound
  | some .corrupt => .error .parseError
  | some (.audio st) => .ok st

/-- Modelled from the spec: the TaggyFile aggregate, one file's metadata
snapshot. -/
structure TaggyFile where
  path : String
  properties : FileProperties
  tags : List Tag

/-- Modelled from the spec: build a TaggyFile snapshot from a parsed
read-only view, converting every discovered native tag in discovery order. -/
def taggy_from_tagged (st : TaggedState) (path : String) : TaggyFile :=
  ⟨path, st.props, st.tags.map tag_from_lofty⟩

/-- Modelled from the spec: build a TaggyFile snapshot from a bound tagged
file, same conversion as the read-only view. -/
def taggy_from_bound_tagged (st : TaggedState) (path : String) : TaggyFile :=
  ⟨path, st.props, st.tags.map tag_from_lofty⟩

/-- Modelled from the spec: keep only the tag matching the container's
primary type, if any. -/
def get_primary_tag_from_tagged_file (st : TaggedState) : List Tag :=
  match st.tags.find? (fun x => decide (x.tagType = st.fileType.primary)) with
  | some t => [tag_from_lofty t]
  | none => []

/-- Modelled from the spec: keep the first discovered tag regardless of type,
if any. -/
def get_any_tag_from_tagged_file (st : TaggedState) : List Tag :=
  match st.tags with
  | [] => []
  | t :: _ => [tag_from_lofty t]

/-- Outcome of an operation of api.rs: the returned value or error, the file
system after any save, whether a save was performed, and the tag types whose
insertion the operation reported as skipped. -/
structure OpOut (α : Type) where
  res : Except Err α
  fs : FS
  saved : Bool
  warnings : List LoftyTagType

/-- Modelled from the spec: save() persists the in-memory tagged state back
to the file the bound handle was opened from. -/
def saveFS (fs : FS) (path : String) (st : TaggedState) : FS :=
  fun p => if p = path then some (.audio st) else fs p

/-- Read all audio tags from the file at the given path (api.rs read_all). -/
def read_all (fs : FS) (path : String) : Except Err TaggyFile :=
  match get_tagged_file fs path with
  | .error e => .error e
  | .ok tagged => .ok (taggy_from_tagged tagged path)

/-- Read only the primary audio tag from the file at the given path
(api.rs read_primary). -/
def read_primary (fs : FS) (path : String) : Except Err TaggyFile :=
  match get_tagged_file fs path with
  | .error e => .error e
  | .ok tagged =>
      .ok { taggy_from_tagged tagged path with
              tags := get_primary_tag_from_tagged_file tagged }

/-- Read any audio tag from the file at the given path (api.rs read_any). -/
def read_any (fs : FS) (path : String) : Except Err TaggyFile :=
  match get_tagged_file fs path with
  | .error e => .error e
  | .ok tagged =>
      .ok { taggy_from_tagged tagged path with
              tags := get_any_tag_from_tagged_file tagged }

/-- Loop of api.rs insert_tags: insert each converted tag, reporting a
warning for each insert the container rejects instead of failing. -/
def insert_tags (st : TaggedState) : List LoftyTag → TaggedState × List LoftyTagType
  | [] => (st, [])
  | t :: rest =>
    match st.insert_tag t with
    | some st2 => insert_tags st2 rest
    | none =>
        let r := insert_tags st rest
        (r.1, t.tagType :: r.2)

/-- Write all provided tags to the file at the given path
(api.rs write_all). -/
def write_all (fs : FS) (path : String) (tags : List Tag)
    (override_existent : Bool) : OpOut TaggyFile :=
  match get_bound_tagged_file fs path with
  | .error e => ⟨.error e, fs, false, []⟩
  | .ok tagged_file =>
    let tf1 := if override_existent then tagged_file.clear else tagged_file
    let lofty_tags := tags.map Tag.to_lofty
    let r := insert_tags tf1 lofty_tags
    ⟨.ok (taggy_from_bound_tagged r.1 path), saveFS fs path r.1, true, r.2⟩

/-- Write the provided tag as the primary tag for the file at the given path
(api.rs write_primary); the tag's type is overridden with the file's primary
tag type and the insert result is discarded. -/
def write_primary (fs : FS) (path : String) (tag : Tag) (keep_others : Bool) :
    OpOut TaggyFile :=
  match get_bound_tagged_file fs path with
  | .error e => ⟨.error e, fs, false, []⟩
  | .ok tagged_file =>
    let tf1 := if keep_others then tagged_file else tagged_file.clear
    let lofty_tag_type := tf1.fileType.primary
    let updated_tag := { tag with tag_type := TagType.fromLofty lofty_tag_type }
    let tf2 := (tf1.insert_tag updated_tag.to_lofty).getD tf1
    ⟨.ok (taggy_from_bound_tagged tf2 path), saveFS fs path tf2, true, []⟩

/-- Helper of api.rs: add a tag with empty data to the file; the insert
result is discarded. -/
def insert_empty_tag (st : TaggedState) (tag_type : TagType) : TaggedState :=
  (st.insert_tag (Tag.new tag_type).to_lofty).getD st

/-- Delete all tags from the file at the given path (api.rs remove_all):
clear, insert one empty tag of the primary type, save. -/
def remove_all (fs : FS) (path : String) : OpOut Unit :=
  match get_bound_tagged_file fs path with
  | .error e => ⟨.error e, fs, false, []⟩
  | .ok tagged =>
    let t1 := tagged.clear
    let tag_type := t1.primary_tag_type
    let t2 := insert_empty_tag t1 (TagType.fromLofty tag_type)
    ⟨.ok (), saveFS fs path t2, true, []⟩

/-- Delete the provided tag from the file at the given path
(api.rs remove_tag): return success with no save when no tag of that type
exists, otherwise remove it, insert an empty tag of the same type, save. -/
def remove_tag (fs : FS) (path : String) (tag : Tag) : OpOut Unit :=
  match get_bound_tagged_file fs path with
  | .error e => ⟨.error e, fs, false, []⟩
  | .ok tagged =>
    match tagged.remove tag.tag_type.intoLofty with
    | none => ⟨.ok (), fs, false, []⟩
    | some r =>
      let t2 := insert_empty_tag r.2 tag.tag_type
      ⟨.ok (), saveFS fs path t2, true, []⟩

/-!
Helper lemmas about the backend model.
-/

theorem intoLofty_fromLofty (lt : LoftyTagType) :
    TagType.intoLofty (TagType.fromLofty lt) = lt := by
  cases lt <;> rfl

theorem fromLofty_eq_iff (u : TagType) (hu : u ≠ TagType.FilePrimaryType)
    (lt : LoftyTagType) :
    TagType.fromLofty lt = u ↔ lt = u.intoLofty := by
  cases u <;> first
    | exact absurd rfl hu
    | (cases lt <;> simp [TagType.fromLofty, TagType.intoLofty])

theorem find?_insertTagList (ts : List LoftyTag) (t : LoftyTag)
    (tt : LoftyTagType) (h : t.tagType = tt) :
    (insertTagList ts t).find? (fun x => decide (x.tagType = tt)) = some t := by
  induction ts with
  | nil => simp [insertTagList, List.find?, h]
  | cons x rest ih =>
    by_cases hx : x.tagType = t.tagType
    · simp [insertTagList, hx, List.find?, h]
    · have hx2 : ¬x.tagType = tt := fun hc => hx (hc.trans h.symm)
      simp [insertTagList, hx, List.find?, hx2, ih]

theorem mem_insertTagList_self (ts : List LoftyTag) (t : LoftyTag) :
    t ∈ insertTagList ts t := by
  induction ts with
  | nil => simp [insertTagList]
  | cons x rest ih =>
    by_cases hx : x.tagType = t.tagType <;> simp [insertTagList, hx, ih]

theorem mem_insertTagList_of_ne (ts : List LoftyTag) (t y : LoftyTag)
    (hy : y ∈ ts) (hne : y.tagType ≠ t.tagType) : y ∈ insertTagList ts t := by
  induction ts with
  | nil => cases hy
  | cons x rest ih =>
    by_cases hx : x.tagType = t.tagType
    · simp only [insertTagList, if_pos hx]
      rcases List.mem_cons.1 hy with h1 | h1
      · exact absurd (h1 ▸ hx) hne
      · exact List.mem_cons_of_mem _ h1
    · simp only [insertTagList, if_neg hx]
      rcases List.mem_cons.1 hy with h1 | h1
      · exact h1 ▸ List.mem_cons_self _ _
      · exact List.mem_cons_of_mem _ (ih h1)

theorem mem_insertTagList (ts : List LoftyTag) (t y : LoftyTag)
    (hy : y ∈ insertTagList ts t) : y ∈ ts ∨ y = t := by
  induction ts with
  | nil => simpa [insertTagList] using hy
  | cons x rest ih =>
    by_cases hx : x.tagType = t.tagType
    · simp only [insertTagList, if_pos hx] at hy
      rcases List.mem_cons.1 hy with h1 | h1
      · exact Or.inr h1
      · exact Or.inl (List.mem_cons_of_mem _ h1)
    · simp only [insertTagList, if_neg hx] at hy
      rcases List.mem_cons.1 hy with h1 | h1
      · exact Or.inl (h1 ▸ List.mem_cons_self _ _)
      · rcases ih h1 with h2 | h2
        · exact Or.inl (List.mem_cons_of_mem _ h2)
        · exact Or.inr h2

theorem insert_tag_of_supports (st : TaggedState) (t : LoftyTag)
    (h : st.fileType.supports t.tagType = true) :
    st.insert_tag t = some { st with tags := insertTagList st.tags t } := by
  simp [TaggedState.insert_tag, h]

theorem insert_tag_of_not_supports (st : TaggedState) (t : LoftyTag)
    (h : st.fileType.supports t.tagType = false) :
    st.insert_tag t = none := by
  simp [TaggedState.insert_tag, h]

theorem insert_tags_fileType (ts : List LoftyTag) (st : TaggedState) :
    (insert_tags st ts).1.fileType = st.fileType := by
  induction ts generalizing st with
  | nil => rfl
  | cons t rest ih =>
    rcases hs : st.fileType.supports t.tagType with _ | _
    · simp only [insert_tags, insert_tag_of_not_supports st t hs]
      exact ih st
    · simp only [insert_tags, insert_tag_of_supports st t hs]
      exact ih _

theorem insert_tags_warnings (ts : List LoftyTag) (st : TaggedState) :
    (insert_tags st ts).2 =
      (ts.filter (fun t => !st.fileType.supports t.tagType)).map
        (fun t => t.tagType) := by
  induction ts generalizing st with
  | nil => rfl
  | cons t rest ih =>
    rcases hs : st.fileType.supports t.tagType with _ | _
    · simp only [insert_tags, insert_tag_of_not_supports st t hs]
      rw [ih]
      simp [List.filter_cons, hs]
    · simp only [insert_tags, insert_tag_of_supports st t hs]
      rw [ih]
      simp [List.filter_cons, hs]

theorem insert_tags_preserves_type (ts : List LoftyTag) (st : TaggedState)
    (tt : LoftyTagType) (h : ∃ x ∈ st.tags, x.tagType = tt) :
    ∃ x ∈ (insert_tags st ts).1.tags, x.tagType = tt := by
  induction ts generalizing st with
  | nil => exact h
  | cons t rest ih =>
    rcases hs : st.fileType.supports t.tagType with _ | _
    · simp only [insert_tags, insert_tag_of_not_supports st t hs]
      exact ih st h
    · simp only [insert_tags, insert_tag_of_supports st t hs]
      apply ih
      obtain ⟨x, hx, hxt⟩ := h
      by_cases he : x.tagType = t.tagType
      · exact ⟨t, mem_insertTagList_self _ _, he.symm.trans hxt⟩
      · exact ⟨x, mem_insertTagList_of_ne _ _ _ hx he, hxt⟩

theorem insert_tags_inserts (ts : List LoftyTag) (st : TaggedState)
    (t : LoftyTag) (ht : t ∈ ts)
    (hs : st.fileType.supports t.tagType = true) :
    ∃ x ∈ (insert_tags st ts).1.tags, x.tagType = t.tagType := by
  induction ts generalizing st with
  | nil => cases ht
  | cons u rest ih =>
    rcases List.mem_cons.1 ht with rfl | hmem
    · simp only [insert_tags, insert_tag_of_supports st t hs]
      exact insert_tags_preserves_type rest _ t.tagType
        ⟨t, mem_insertTagList_self _ _, rfl⟩
    · rcases hu : st.fileType.supports u.tagType with _ | _
      · simp only [insert_tags, insert_tag_of_not_supports st u hu]
        exact ih st hmem hs
      · simp only [insert_tags, insert_tag_of_supports st u hu]
        exact ih _ hmem hs

theorem insert_tags_mem_src (ts : List LoftyTag) (st : TaggedState)
    (x : LoftyTag) (hx : x ∈ (insert_tags st ts).1.tags) :
    x ∈ st.tags ∨ ∃ t ∈ ts, x = t ∧ st.fileType.supports t.tagType = true := by
  induction ts generalizing st with
  | nil => exact Or.inl hx
  | cons t rest ih =>
    rcases hs : st.fileType.supports t.tagType with _ | _
    · simp only [insert_tags, insert_tag_of_not_supports st t hs] at hx
      rcases ih st hx with h1 | ⟨u, hu, hxu, hsu⟩
      · exact Or.inl h1
      · exact Or.inr ⟨u, List.mem_cons_of_mem _ hu, hxu, hsu⟩
    · simp only [insert_tags, insert_tag_of_supports st t hs] at hx
      rcases ih _ hx with h1 | ⟨u, hu, hxu, hsu⟩
      · rcases mem_insertTagList _ _ _ h1 with h2 | h2
        · exact Or.inl h2
        · exact Or.inr ⟨t, List.mem_cons_self _ _, h2, hs⟩
      · exact Or.inr ⟨u, List.mem_cons_of_mem _ hu, hxu, hsu⟩

theorem insert_tags_preserves_mem (ts : List LoftyTag) (st : TaggedState)
    (x : LoftyTag) (hx : x ∈ st.tags)
    (h : ∀ t ∈ ts, t.tagType ≠ x.tagType) :
    x ∈ (insert_tags st ts).1.tags := by
  induction ts generalizing st with
  | nil => exact hx
  | cons t rest ih =>
    rcases hs : st.fileType.supports t.tagType with _ | _
    · simp only [insert_tags, insert_tag_of_not_supports st t hs]
      exact ih st hx (fun u hu => h u (List.mem_cons_of_mem _ hu))
    · simp only [insert_tags, insert_tag_of_supports st t hs]
      exact ih _
        (mem_insertTagList_of_ne _ _ _ hx
          (fun he => h t (List.mem_cons_self _ _) he.symm))
        (fun u hu => h u (List.mem_cons_of_mem _ hu))

/-!
Concrete sample values used by the witness theorems.
-/

/-- Sample stream properties. -/
def sampleProps : FileProperties :=
  ⟨some 180, some 320, some 44100, some 2⟩

/-- Sample container: an MP3-like file type whose primary tag format is
ID3v2 and which hosts ID3v2, ID3v1 and APE tags. -/
def mp3FileType : FileType :=
  ⟨LoftyTagType.Id3v2, fun t =>
    match t with
    | .Id3v2 => true
    | .Id3v1 => true
    | .Ape => true
    | _ => false⟩

/-- Sample tag carrying a title. -/
def sampleTag : Tag :=
  { Tag.new TagType.Id3v2 with title := some "X" }

/-- Sample parsed state with no tags. -/
def sampleState : TaggedState :=
  ⟨mp3FileType, sampleProps, []⟩

/-- Sample file system mapping every path to the sample state. -/
def sampleFS : FS :=
  fun _ => some (.audio sampleState)

/-- Sample container that rejects every tag insertion, including its own
primary type. -/
def rejectingFileType : FileType :=
  ⟨LoftyTagType.Mp4Ilst, fun _ => false⟩

/-- Sample parsed state over the rejecting container. -/
def rejectingState : TaggedState :=
  ⟨rejectingFileType, sampleProps, [(Tag.new TagType.Ape).to_lofty]⟩

/-- Sample file system over the rejecting container. -/
def rejectingFS : FS :=
  fun _ => some (.audio rejectingState)

/-!
Claim theorems.
-/

/-- Claim C5: for every path that cannot be opened, each of the seven public
operations returns a not-found failure, aborts immediately, and performs no
tag mutation or save. -/
theorem unopenable_path_fails_without_mutation
    (fs : FS) (path : String) (tags : List Tag) (tag : Tag)
    (override_existent keep_others : Bool)
    (hopen : fs path = none) :
    read_all fs path = .error .notFound ∧
    read_primary fs path = .error .notFound ∧
    read_any fs path = .error .notFound ∧
    write_all fs path tags override_existent = ⟨.error .notFound, fs, false, []⟩ ∧
    write_primary fs path tag keep_others = ⟨.error .notFound, fs, false, []⟩ ∧
    remove_all fs path = ⟨.error .notFound, fs, false, []⟩ ∧
    remove_tag fs path tag = ⟨.error .notFound, fs, false, []⟩ := by
  refine ⟨?_, ?_, ?_, ?_, ?_, ?_, ?_⟩ <;>
    simp [read_all, read_primary, read_any, write_all, write_primary,
      remove_all, remove_tag, get_tagged_file, get_bound_tagged_file, hopen]

/-- Witness for claim C5 at a concrete empty file system and path. -/
theorem unopenable_path_fails_without_mutation_witness :
    (fun _ => none : FS) "a.mp3" = none ∧
    remove_tag (fun _ => none : FS) "a.mp3" sampleTag =
      ⟨.error .notFound, (fun _ => none : FS), false, []⟩ :=
  ⟨rfl,
    (unopenable_path_fails_without_mutation (fun _ => none) "a.mp3" [] sampleTag
      true true rfl).2.2.2.2.2.2⟩

/-- Claim C9: remove_tag depends only on the argument tag's tag_type; two
input tags with equal tag_type but arbitrary other fields produce the same
removal, empty-tag insertion, save, and final file state. -/
theorem remove_tag_depends_only_on_tag_type
    (fs : FS) (path : String) (tag1 tag2 : Tag)
    (h : tag1.tag_type = tag2.tag_type) :
    remove_tag fs path tag1 = remove_tag fs path tag2 := by
  unfold remove_tag
  rw [h]

/-- Witness for claim C9 at two concrete tags differing in their title. -/
theorem remove_tag_depends_only_on_tag_type_witness :
    (sampleTag.tag_type = (Tag.new TagType.Id3v2).tag_type) ∧
    remove_tag sampleFS "a.mp3" sampleTag =
      remove_tag sampleFS "a.mp3" (Tag.new TagType.Id3v2) :=
  ⟨rfl, remove_tag_depends_only_on_tag_type sampleFS "a.mp3" sampleTag
    (Tag.new TagType.Id3v2) rfl⟩

/-- Claim C10: write_all with an empty tag sequence and override_existent set
clears every existing tag and saves without inserting any replacement tag,
returning a success snapshot whose tag sequence is empty. -/
theorem write_all_empty_override_clears
    (fs : FS) (path : String) (st : TaggedState)
    (hopen : fs path = some (.audio st)) :
    write_all fs path [] true =
      ⟨.ok ⟨path, st.props, []⟩, saveFS fs path { st with tags := [] },
        true, []⟩ := by
  simp [write_all, get_bound_tagged_file, hopen, insert_tags,
    TaggedState.clear, taggy_from_bound_tagged, List.map_nil]

/-- Witness for claim C10 at a concrete file system holding one APE tag. -/
theorem write_all_empty_override_clears_witness :
    rejectingFS "a.mp3" = some (.audio rejectingState) ∧
    write_all rejectingFS "a.mp3" [] true =
      ⟨.ok ⟨"a.mp3", rejectingState.props, []⟩,
        saveFS rejectingFS "a.mp3" { rejectingState with tags := [] },
        true, []⟩ :=
  ⟨rfl, write_all_empty_override_clears rejectingFS "a.mp3" rejectingState rfl⟩

/-- Claim C4: remove_all clears every existing tag from the in-memory file,
inserts exactly one empty tag (all fields absent) of the container's primary
type, then saves, and only then reports success. -/
theorem remove_all_clears_and_inserts_empty_primary
    (fs : FS) (path : String) (st : TaggedState)
    (hopen : fs path = some (.audio st))
    (hsup : st.fileType.supports st.fileType.primary = true) :
    remove_all fs path =
      ⟨.ok (),
        saveFS fs path { st with tags :=
          [(Tag.new (TagType.fromLofty st.fileType.primary)).to_lofty] },
        true, []⟩ := by
  have hins :
      (TaggedState.clear st).insert_tag
          (Tag.new (TagType.fromLofty st.fileType.primary)).to_lofty =
        some { st with tags :=
          [(Tag.new (TagType.fromLofty st.fileType.primary)).to_lofty] } := by
    have htag :
        ((Tag.new (TagType.fromLofty st.fileType.primary)).to_lofty).tagType =
          st.fileType.primary := intoLofty_fromLofty _
    rw [insert_tag_of_supports _ _ (by rw [htag]; exact hsup)]
    rfl
  have hgb : get_bound_tagged_file fs path = Except.ok st := by
    simp [get_bound_tagged_file, hopen]
  simp only [remove_all, hgb, TaggedState.primary_tag_type, insert_empty_tag]
  rw [show st.clear.fileType = st.fileType from rfl, hins, Option.getD_some]

/-- Witness for claim C4 at a concrete MP3-like file system. -/
theorem remove_all_clears_and_inserts_empty_primary_witness :
    sampleFS "a.mp3" = some (.audio sampleState) ∧
    sampleState.fileType.supports sampleState.fileType.primary = true ∧
    remove_all sampleFS "a.mp3" =
      ⟨.ok (),
        saveFS sampleFS "a.mp3" { sampleState with tags :=
          [(Tag.new (TagType.fromLofty sampleState.fileType.primary)).to_lofty] },
        true, []⟩ :=
  ⟨rfl, rfl,
    remove_all_clears_and_inserts_empty_primary sampleFS "a.mp3" sampleState
      rfl rfl⟩

theorem read_primary_after_save (fs : FS) (path : String) (st2 : TaggedState) :
    read_primary (saveFS fs path st2) path =
      .ok { taggy_from_tagged st2 path with
              tags := get_primary_tag_from_tagged_file st2 } := by
  simp [read_primary, get_tagged_file, saveFS]

theorem get_primary_after_insert (st1 : TaggedState) (u : LoftyTag)
    (hu : u.tagType = st1.fileType.primary) :
    get_primary_tag_from_tagged_file { st1 with tags := insertTagList st1.tags u } =
      [tag_from_lofty u] := by
  simp only [get_primary_tag_from_tagged_file]
  rw [find?_insertTagList _ _ _ hu]

/-- Claim C7: read_primary on a parsed file returns a TaggyFile whose tag
sequence has zero or one element; a present element has the container's
primary tag type, and a file with no tag of the primary type gives an empty
tag list, not an error. -/
theorem read_primary_zero_or_one_tag
    (fs : FS) (path : String) (st : TaggedState)
    (hopen : fs path = some (.audio st)) :
    ∃ tf, read_primary fs path = .ok tf ∧ tf.tags.length ≤ 1 ∧
      (∀ t ∈ tf.tags, t.tag_type = TagType.fromLofty st.fileType.primary) ∧
      ((∀ x ∈ st.tags, x.tagType ≠ st.fileType.primary) → tf.tags = []) := by
  have hgt : get_tagged_file fs path = Except.ok st := by
    simp [get_tagged_file, hopen]
  have hout : read_primary fs path =
      .ok { taggy_from_tagged st path with
              tags := get_primary_tag_from_tagged_file st } := by
    simp only [read_primary, hgt]
  have htags :
      ({ taggy_from_tagged st path with
           tags := get_primary_tag_from_tagged_file st } : TaggyFile).tags =
        get_primary_tag_from_tagged_file st := rfl
  rcases hfind : st.tags.find? (fun x => decide (x.tagType = st.fileType.primary))
      with _ | y
  · have h : get_primary_tag_from_tagged_file st = [] := by
      simp only [get_primary_tag_from_tagged_file, hfind]
    refine ⟨_, hout, ?_, ?_, ?_⟩ <;> simp [htags, h]
  · have hy : y.tagType = st.fileType.primary := by
      simpa using List.find?_some hfind
    have h : get_primary_tag_from_tagged_file st = [tag_from_lofty y] := by
      simp only [get_primary_tag_from_tagged_file, hfind]
    refine ⟨_, hout, ?_, ?_, ?_⟩
    · simp [htags, h]
    · rw [htags, h]
      intro t ht
      rw [List.mem_singleton] at ht
      subst ht
      show TagType.fromLofty y.tagType = TagType.fromLofty st.fileType.primary
      rw [hy]
    · intro hnone
      exact absurd hy (hnone y (List.mem_of_find?_eq_some hfind))

/-- Witness for claim C7 at a concrete file system holding one APE tag while
the container's primary type is MP4 ilst. -/
theorem read_primary_zero_or_one_tag_witness :
    rejectingFS "a.mp3" = some (.audio rejectingState) ∧
    ∃ tf, read_primary rejectingFS "a.mp3" = .ok tf ∧ tf.tags.length ≤ 1 ∧
      (∀ t ∈ tf.tags,
        t.tag_type = TagType.fromLofty rejectingState.fileType.primary) ∧
      ((∀ x ∈ rejectingState.tags,
          x.tagType ≠ rejectingState.fileType.primary) → tf.tags = []) :=
  ⟨rfl, read_primary_zero_or_one_tag rejectingFS "a.mp3" rejectingState rfl⟩

/-- Claim C8: write_primary discards the backend's insert result; when the
container rejects the insert of the retyped primary tag, no warning is
reported and no error is raised, and the operation still saves and returns a
success snapshot. -/
theorem write_primary_ignores_rejected_insert
    (fs : FS) (path : String) (tag : Tag) (keep_others : Bool)
    (st : TaggedState)
    (hopen : fs path = some (.audio st))
    (hrej : st.fileType.supports st.fileType.primary = false) :
    write_primary fs path tag keep_others =
      ⟨.ok ⟨path, st.props,
          if keep_others then st.tags.map tag_from_lofty else []⟩,
        saveFS fs path (if keep_others then st else st.clear), true, []⟩ := by
  have hgb : get_bound_tagged_file fs path = Except.ok st := by
    simp [get_bound_tagged_file, hopen]
  cases keep_others
  · have hins : (⟨st.fileType, st.props, []⟩ : TaggedState).insert_tag
        ({ tag with tag_type := TagType.fromLofty st.fileType.primary } :
          Tag).to_lofty = none := by
      apply insert_tag_of_not_supports
      show st.fileType.supports
        (TagType.intoLofty (TagType.fromLofty st.fileType.primary)) = false
      rw [intoLofty_fromLofty]
      exact hrej
    simp [write_primary, hgb, hins, taggy_from_bound_tagged, TaggedState.clear]
  · have hins : st.insert_tag
        ({ tag with tag_type := TagType.fromLofty st.fileType.primary } :
          Tag).to_lofty = none := by
      apply insert_tag_of_not_supports
      show st.fileType.supports
        (TagType.intoLofty (TagType.fromLofty st.fileType.primary)) = false
      rw [intoLofty_fromLofty]
      exact hrej
    simp [write_primary, hgb, hins, taggy_from_bound_tagged]

/-- Witness for claim C8 at a concrete container that rejects every insert. -/
theorem write_primary_ignores_rejected_insert_witness :
    rejectingFS "a.mp3" = some (.audio rejectingState) ∧
    rejectingState.fileType.supports rejectingState.fileType.primary = false ∧
    write_primary rejectingFS "a.mp3" sampleTag true =
      ⟨.ok ⟨"a.mp3", rejectingState.props, rejectingState.tags.map tag_from_lofty⟩,
        saveFS rejectingFS "a.mp3" rejectingState, true, []⟩ :=
  ⟨rfl, rfl,
    write_primary_ignores_rejected_insert rejectingFS "a.mp3" sampleTag true
      rejectingState rfl rfl⟩

/-- Claim C2: remove_tag on a parsed file returns success immediately with no
save and an unchanged file system when no tag of the given tag's type exists;
otherwise it removes that tag, inserts an empty tag of the same type, and
saves. -/
theorem remove_tag_noop_or_removes_and_saves
    (fs : FS) (path : String) (tag : Tag) (st : TaggedState)
    (hopen : fs path = some (.audio st))
    (hty : tag.tag_type ≠ TagType.FilePrimaryType) :
    ((∀ x ∈ st.tags, TagType.fromLofty x.tagType ≠ tag.tag_type) →
        remove_tag fs path tag = ⟨.ok (), fs, false, []⟩) ∧
    (∀ x ∈ st.tags, TagType.fromLofty x.tagType = tag.tag_type →
      st.fileType.supports tag.tag_type.intoLofty = true →
      remove_tag fs path tag =
        ⟨.ok (),
          saveFS fs path { st with tags :=
            (insertTagList
              (st.tags.filter
                (fun y => decide (y.tagType ≠ tag.tag_type.intoLofty)))
              (Tag.new tag.tag_type).to_lofty) },
          true, []⟩) := by
  have hgb : get_bound_tagged_file fs path = Except.ok st := by
    simp [get_bound_tagged_file, hopen]
  constructor
  · intro hnone
    have hfind : st.tags.find?
        (fun x => decide (x.tagType = tag.tag_type.intoLofty)) = none := by
      rw [List.find?_eq_none]
      intro x hx
      simp only [decide_eq_true_eq]
      intro hc
      exact hnone x hx ((fromLofty_eq_iff tag.tag_type hty x.tagType).2 hc)
    have hrm : st.remove tag.tag_type.intoLofty = none := by
      simp only [TaggedState.remove, hfind]
    simp only [remove_tag, hgb, hrm]
  · intro x hx hmatch hsup
    have hxe : x.tagType = tag.tag_type.intoLofty :=
      (fromLofty_eq_iff tag.tag_type hty x.tagType).1 hmatch
    rcases hfind : st.tags.find?
        (fun y => decide (y.tagType = tag.tag_type.intoLofty)) with _ | y
    · exact absurd (by simpa using List.find?_eq_none.1 hfind x hx) (by simp [hxe])
    · have hrm : st.remove tag.tag_type.intoLofty =
          some (y, { st with tags := (st.tags.filter
            (fun z => decide (z.tagType ≠ tag.tag_type.intoLofty))) }) := by
        simp only [TaggedState.remove, hfind]
      have hins : ({ st with tags := (st.tags.filter
            (fun z => decide (z.tagType ≠ tag.tag_type.intoLofty))) } :
              TaggedState).insert_tag (Tag.new tag.tag_type).to_lofty =
          some { st with tags :=
            (insertTagList
              (st.tags.filter
                (fun z => decide (z.tagType ≠ tag.tag_type.intoLofty)))
              (Tag.new tag.tag_type).to_lofty) } :=
        insert_tag_of_supports _ _ hsup
      simp only [remove_tag, hgb, hrm, insert_empty_tag, hins, Option.getD_some]

/-- Witness for claim C2: on a concrete file with no ID3v2 tag the call is a
saveless no-op. -/
theorem remove_tag_noop_or_removes_and_saves_witness :
    sampleFS "a.mp3" = some (.audio sampleState) ∧
    sampleTag.tag_type ≠ TagType.FilePrimaryType ∧
    remove_tag sampleFS "a.mp3" sampleTag = ⟨.ok (), sampleFS, false, []⟩ :=
  ⟨rfl, by decide,
    (remove_tag_noop_or_removes_and_saves sampleFS "a.mp3" sampleTag sampleState
      rfl (by decide)).1
      (by intro x hx; simp [sampleState] at hx)⟩

/-- Claim C1: writing a primary tag with a given field set and then reading
the primary tag back yields a Tag equal to that field set in every field,
except that its tag_type is the container's primary tag type regardless of
the tag_type supplied at write time. -/
theorem write_primary_read_primary_roundtrip
    (fs : FS) (path : String) (tag : Tag) (keep_others : Bool)
    (st : TaggedState)
    (hopen : fs path = some (.audio st))
    (hsup : st.fileType.supports st.fileType.primary = true) :
    ∃ tf, (write_primary fs path tag keep_others).res = .ok tf ∧
      read_primary (write_primary fs path tag keep_others).fs path =
        .ok ⟨path, st.props,
          [{ tag with tag_type := TagType.fromLofty st.fileType.primary }]⟩ := by
  have hgb : get_bound_tagged_file fs path = Except.ok st := by
    simp [get_bound_tagged_file, hopen]
  have hkey : ∀ st1 : TaggedState, st1.fileType = st.fileType →
      st1.props = st.props →
      read_primary (saveFS fs path
        { st1 with tags := (insertTagList st1.tags
            ({ tag with tag_type := TagType.fromLofty st1.fileType.primary } :
              Tag).to_lofty) }) path =
      .ok ⟨path, st.props,
        [{ tag with tag_type := TagType.fromLofty st.fileType.primary }]⟩ := by
    intro st1 hft hpr
    rw [read_primary_after_save, get_primary_after_insert _ _ (by
      show TagType.intoLofty (TagType.fromLofty st1.fileType.primary) =
        st1.fileType.primary
      exact intoLofty_fromLofty _)]
    simp [taggy_from_tagged, tag_from_lofty, Tag.to_lofty, intoLofty_fromLofty,
      hft, hpr]
  cases keep_others
  · have hsup2 : ((⟨st.fileType, st.props, []⟩ : TaggedState) :
        TaggedState).fileType.supports
        (({ tag with tag_type := TagType.fromLofty st.fileType.primary } :
          Tag).to_lofty.tagType) = true := by
      show st.fileType.supports
        (TagType.intoLofty (TagType.fromLofty st.fileType.primary)) = true
      rw [intoLofty_fromLofty]
      exact hsup
    have hins := insert_tag_of_supports _ _ hsup2
    have hw : write_primary fs path tag false =
        ⟨.ok (taggy_from_bound_tagged
            { fileType := st.fileType, props := st.props,
              tags := (insertTagList []
                ({ tag with tag_type := TagType.fromLofty st.fileType.primary } :
                  Tag).to_lofty) } path),
          saveFS fs path
            { fileType := st.fileType, props := st.props,
              tags := (insertTagList []
                ({ tag with tag_type := TagType.fromLofty st.fileType.primary } :
                  Tag).to_lofty) },
          true, []⟩ := by
      simp [write_primary, hgb, TaggedState.clear, hins]
    rw [hw]
    exact ⟨_, rfl, hkey ⟨st.fileType, st.props, []⟩ rfl rfl⟩
  · have hsup2 : st.fileType.supports
        (({ tag with tag_type := TagType.fromLofty st.fileType.primary } :
          Tag).to_lofty.tagType) = true := by
      show st.fileType.supports
        (TagType.intoLofty (TagType.fromLofty st.fileType.primary)) = true
      rw [intoLofty_fromLofty]
      exact hsup
    have hins := insert_tag_of_supports st _ hsup2
    have hw : write_primary fs path tag true =
        ⟨.ok (taggy_from_bound_tagged
            { st with tags := (insertTagList st.tags
              ({ tag with tag_type := TagType.fromLofty st.fileType.primary } :
                Tag).to_lofty) } path),
          saveFS fs path
            { st with tags := (insertTagList st.tags
              ({ tag with tag_type := TagType.fromLofty st.fileType.primary } :
                Tag).to_lofty) },
          true, []⟩ := by
      simp [write_primary, hgb, hins]
    rw [hw]
    exact ⟨_, rfl, hkey st rfl rfl⟩

/-- Witness for claim C1 at a concrete MP3-like file and a tag carrying a
title. -/
theorem write_primary_read_primary_roundtrip_witness :
    sampleFS "a.mp3" = some (.audio sampleState) ∧
    sampleState.fileType.supports sampleState.fileType.primary = true ∧
    ∃ tf, (write_primary sampleFS "a.mp3" sampleTag false).res = .ok tf ∧
      read_primary (write_primary sampleFS "a.mp3" sampleTag false).fs "a.mp3" =
        .ok ⟨"a.mp3", sampleState.props,
          [{ sampleTag with
              tag_type := TagType.fromLofty sampleState.fileType.primary }]⟩ :=
  ⟨rfl, rfl,
    write_primary_read_primary_roundtrip sampleFS "a.mp3" sampleTag false
      sampleState rfl rfl⟩

/-- Claim C3: an insert rejected by the container during write_all is
reported as a warning and does not fail the operation; every supported
supplied tag in the same call is still inserted and persisted. -/
theorem write_all_unsupported_insert_nonfatal
    (fs : FS) (path : String) (tags : List Tag) (override_existent : Bool)
    (st : TaggedState)
    (hopen : fs path = some (.audio st)) :
    ∃ tf st2,
      write_all fs path tags override_existent =
        ⟨.ok tf, saveFS fs path st2, true,
          (((tags.map Tag.to_lofty).filter
              (fun t => !st.fileType.supports t.tagType)).map
            (fun t => t.tagType))⟩ ∧
      ∀ t ∈ tags, st.fileType.supports t.tag_type.intoLofty = true →
        ∃ x ∈ st2.tags, x.tagType = t.tag_type.intoLofty := by
  have hgb : get_bound_tagged_file fs path = Except.ok st := by
    simp [get_bound_tagged_file, hopen]
  cases override_existent
  · refine ⟨taggy_from_bound_tagged
        (insert_tags st (tags.map Tag.to_lofty)).1 path,
      (insert_tags st (tags.map Tag.to_lofty)).1, ?_, ?_⟩
    · simp [write_all, hgb]
      rw [insert_tags_warnings]
    · intro t ht hs
      exact insert_tags_inserts _ st t.to_lofty (List.mem_map_of_mem _ ht) hs
  · refine ⟨taggy_from_bound_tagged
        (insert_tags st.clear (tags.map Tag.to_lofty)).1 path,
      (insert_tags st.clear (tags.map Tag.to_lofty)).1, ?_, ?_⟩
    · simp [write_all, hgb]
      rw [insert_tags_warnings]
      simp [TaggedState.clear]
    · intro t ht hs
      exact insert_tags_inserts _ st.clear t.to_lofty
        (List.mem_map_of_mem _ ht) hs

/-- Witness for claim C3 at a concrete rejecting container and one tag. -/
theorem write_all_unsupported_insert_nonfatal_witness :
    rejectingFS "a.mp3" = some (.audio rejectingState) ∧
    ∃ tf st2,
      write_all rejectingFS "a.mp3" [sampleTag] false =
        ⟨.ok tf, saveFS rejectingFS "a.mp3" st2, true,
          ((([sampleTag].map Tag.to_lofty).filter
              (fun t => !rejectingState.fileType.supports t.tagType)).map
            (fun t => t.tagType))⟩ ∧
      ∀ t ∈ [sampleTag],
        rejectingState.fileType.supports t.tag_type.intoLofty = true →
        ∃ x ∈ st2.tags, x.tagType = t.tag_type.intoLofty :=
  ⟨rfl,
    write_all_unsupported_insert_nonfatal rejectingFS "a.mp3" [sampleTag]
      false rejectingState rfl⟩

/-- Claim C6: with override_existent set, write_all clears all existing tags
before inserting, so the resulting file contains only supported input tags;
with it unset, existing tags of types not among the inputs are preserved. -/
theorem write_all_override_or_preserve
    (fs : FS) (path : String) (tags : List Tag) (st : TaggedState)
    (hopen : fs path = some (.audio st)) :
    (∃ st2, (write_all fs path tags true).fs path = some (.audio st2) ∧
      ∀ x ∈ st2.tags, ∃ t ∈ tags,
        x = t.to_lofty ∧ st.fileType.supports t.tag_type.intoLofty = true) ∧
    (∃ st2, (write_all fs path tags false).fs path = some (.audio st2) ∧
      ∀ x ∈ st.tags, (∀ t ∈ tags, t.tag_type.intoLofty ≠ x.tagType) →
        x ∈ st2.tags) := by
  have hgb : get_bound_tagged_file fs path = Except.ok st := by
    simp [get_bound_tagged_file, hopen]
  constructor
  · refine ⟨(insert_tags st.clear (tags.map Tag.to_lofty)).1, ?_, ?_⟩
    · simp [write_all, hgb, saveFS, TaggedState.clear]
    · intro x hx
      rcases insert_tags_mem_src _ _ _ hx with h1 | ⟨u, hu, rfl, hsu⟩
      · exact absurd h1 (by simp [TaggedState.clear])
      · rcases List.mem_map.1 hu with ⟨t, ht, rfl⟩
        exact ⟨t, ht, rfl, hsu⟩
  · refine ⟨(insert_tags st (tags.map Tag.to_lofty)).1, ?_, ?_⟩
    · simp [write_all, hgb, saveFS]
    · intro x hx hne
      apply insert_tags_preserves_mem _ _ _ hx
      intro u hu
      rcases List.mem_map.1 hu with ⟨t, ht, rfl⟩
      exact hne t ht

/-- Witness for claim C6 at a concrete file holding one APE tag and an input
list holding one ID3v2 tag. -/
theorem write_all_override_or_preserve_witness :
    rejectingFS "a.mp3" = some (.audio rejectingState) ∧
    (∃ st2, (write_all rejectingFS "a.mp3" [sampleTag] true).fs "a.mp3" =
        some (.audio st2) ∧
      ∀ x ∈ st2.tags, ∃ t ∈ [sampleTag],
        x = t.to_lofty ∧
          rejectingState.fileType.supports t.tag_type.intoLofty = true) ∧
    (∃ st2, (write_all rejectingFS "a.mp3" [sampleTag] false).fs "a.mp3" =
        some (.audio st2) ∧
      ∀ x ∈ rejectingState.tags,
        (∀ t ∈ [sampleTag], t.tag_type.intoLofty ≠ x.tagType) →
          x ∈ st2.tags) :=
  ⟨rfl,
    write_all_override_or_preserve rejectingFS "a.mp3" [sampleTag]
      rejectingState rfl⟩

end Taggy
